import Mathlib

/-!
Shallow embedding of the asyncqlio/katagawa core:

  - src/katagawa/orm/schema.py      (Column, PrimaryKey, Table metaclass, TableRow)
  - src/katagawa/querying/query.py  (BaseQuery.get_token)
  - src/asyncqlio/backends/base.py  (BaseTransaction, BaseResultSet, DictRow)

Python values are modelled by the inductive PyVal; Python dicts by ordered
association lists (matching dict/OrderedDict insertion-order semantics);
raising code by Except.  Machine-level details (asyncio scheduling, object
identity beyond structural equality) are modelled explicitly where a claim
depends on them.
-/

namespace Asyncqlio

/-- A Python scalar value as it appears in rows, defaults and query operands. -/
inductive PyVal
  | pynone
  | pyint (n : Int)
  | pystr (s : String)
  | pybool (b : Bool)
  deriving DecidableEq, Repr

/-- Python exceptions raised by the embedded code paths. -/
inductive PyErr
  | noSuchColumn (name : String)  -- katagawa.exc.NoSuchColumnError
  | keyError                      -- KeyError from a dict lookup
  | valueError                    -- ValueError("Column table must match row table")
  | attributeError                -- AttributeError (attribute access on None)
  | indexError                    -- IndexError from a list index
  deriving DecidableEq, Repr

deriving instance DecidableEq for Except

/-- Ordered association-list lookup: Python d[k] read, first occurrence wins. -/
def alookup {κ : Type} [DecidableEq κ] (m : List (κ × PyVal)) (k : κ) : Option PyVal :=
  (m.find? (fun e => e.1 = k)).map (fun e => e.2)

/-- Ordered association-list store: Python d[k] = v.  An existing key keeps its
insertion position (dict/OrderedDict semantics); a new key is appended. -/
def aset {κ : Type} [DecidableEq κ] : List (κ × PyVal) → κ → PyVal → List (κ × PyVal)
  | [], k, v => [(k, v)]
  | (k0, v0) :: rest, k, v =>
      if k0 = k then (k0, v) :: rest else (k0, v0) :: aset rest k v

/-! ## Schema model: src/katagawa/orm/schema.py -/

/-- Embeds katagawa.orm.schema.Column.  The owning table is identified by a
numeric id (Python compares table objects by identity); name and binding are
set by set_name at class-creation time and never change, so they are plain
fields here.  Only the fields the claims consult are carried. -/
structure Column where
  name : String
  table : Nat
  primary_key : Bool
  default : PyVal
  deriving DecidableEq, Repr

/-- Embeds a class built by the TableMeta metaclass: a table identity, the
table name, and the columns in declaration (class-body) order. -/
structure Table where
  id : Nat
  name : String
  decl : List Column
  deriving DecidableEq, Repr

/-- Insert a column into a name-sorted list, before the first column whose
name is not smaller: a stable insertion, matching Python's stable sort.
Names are compared as their character sequences (lexicographically by code
point), which is exactly Python's string comparison. -/
def insertSorted (c : Column) : List Column → List Column
  | [] => [c]
  | d :: rest =>
      if d.name.data < c.name.data then d :: insertSorted c rest else c :: d :: rest

/-- Stable sort of columns by name (the order inspect.getmembers yields,
since getmembers sorts the class members by attribute name). -/
def sortByName : List Column → List Column
  | [] => []
  | c :: rest => insertSorted c (sortByName rest)

/-- Embeds TableMeta.iter_columns.  The Python code iterates
inspect.getmembers(self, ...), and getmembers returns members sorted by
attribute name - i.e. alphabetically by column name, NOT in declaration
order. -/
def iter_columns (t : Table) : List Column :=
  sortByName t.decl

/-- Embeds TableMeta.columns: list(self.iter_columns()). -/
def table_columns (t : Table) : List Column :=
  iter_columns t

/-- Embeds katagawa.orm.schema.PrimaryKey: the covered columns (in the order
collected) and the owning table. -/
structure PrimaryKey where
  columns : List Column
  table : Nat
  deriving DecidableEq, Repr

/-- Embeds TableMeta._calculate_primary_key: walk iter_columns, collect the
columns whose primary_key flag is True, and build a PrimaryKey bound to the
table when the collection is non-empty; otherwise there is no primary key. -/
def _calculate_primary_key (t : Table) : Option PrimaryKey :=
  if ((iter_columns t).filter (fun c => c.primary_key)).isEmpty then none
  else some ⟨(iter_columns t).filter (fun c => c.primary_key), t.id⟩

/-- Embeds katagawa.orm.schema.TableRow: the bound table, the existed flag,
and the two Column-keyed dicts (previous values and current values), as
ordered association lists. -/
structure TableRow where
  _table : Table
  existed : Bool
  _previous_values : List (Column × PyVal)
  _values : List (Column × PyVal)
  deriving DecidableEq, Repr

/-- Embeds TableRow.update_column: if the column has no entry in
_previous_values and has a current value, snapshot that current value into
_previous_values; then store the new value.  There is NO check that the
column belongs to the row's table. -/
def update_column (r : TableRow) (c : Column) (v : PyVal) : TableRow :=
  let prev :=
    if (alookup r._previous_values c).isNone then
      match alookup r._values c with
      | some old => aset r._previous_values c old
      | none => r._previous_values
    else r._previous_values
  { r with _previous_values := prev, _values := aset r._values c v }

/-- Embeds TableRow._get_column_value: raises ValueError when the column's
table is not the row's table; otherwise returns the stored value, falling
back to the column's default on a missing key (the KeyError is caught). -/
def _get_column_value (r : TableRow) (c : Column) : Except PyErr PyVal :=
  if c.table ≠ r._table.id then .error .valueError
  else
    match alookup r._values c with
    | some v => .ok v
    | none => .ok c.default

/-- Embeds TableRow.getattr: find the first column of the table (in
iter_columns order) whose name matches; NoSuchColumnError when none matches,
otherwise an uncaught dict lookup self._values[col] - a KeyError when the
column has no stored value (no fallback to the default here). -/
def row_getattr (r : TableRow) (item : String) : Except PyErr PyVal :=
  match (table_columns r._table).find? (fun col => col.name = item) with
  | none => .error (.noSuchColumn item)
  | some col =>
    match alookup r._values col with
    | some v => .ok v
    | none => .error .keyError

/-- Result of the TableRow.primary_key property: a bare scalar or a tuple. -/
inductive PKResult
  | scalar (v : PyVal)
  | tup (vs : List PyVal)
  deriving DecidableEq, Repr

/-- The loop body of the TableRow.primary_key property: collect
_get_column_value for each key column in order (any raise propagates). -/
def collect_values (r : TableRow) : List Column → Except PyErr (List PyVal)
  | [] => .ok []
  | c :: rest =>
    match _get_column_value r c with
    | .error e => .error e
    | .ok v =>
      match collect_values r rest with
      | .error e => .error e
      | .ok vs => .ok (v :: vs)

/-- Embeds the TableRow.primary_key property: read the table's computed
primary key (None gives an AttributeError at pk.columns), collect
_get_column_value for each key column in order (a raise propagates), and
return the single value when exactly one column is in the key, else the
tuple of values. -/
def row_primary_key (r : TableRow) : Except PyErr PKResult :=
  match _calculate_primary_key r._table with
  | none => .error .attributeError
  | some pk =>
    match collect_values r pk.columns with
    | .error e => .error e
    | .ok [v] => .ok (.scalar v)
    | .ok vals => .ok (.tup vals)

/-! ## Query model: src/katagawa/querying/query.py

The operator and SQL-token modules imported by query.py
(katagawa/orm/column.py and katagawa/sql/dialects/common.py) are not part of
the sources; the definitions below marked "Modelled from the spec" embed
them from the specification text. -/

/-- A column as seen by the query builder (katagawa.orm.table.Table columns;
that module is not in the sources, so this carries just the name, per the
spec's data model). -/
structure QColumn where
  name : String
  deriving DecidableEq, Repr

/-- Modelled from the spec: the query-side Table of katagawa/orm/table.py
(not in the sources) - a name and an ordered sequence of columns in
declaration order. -/
structure QTable where
  name : String
  columns : List QColumn
  deriving DecidableEq, Repr

/-- An operator operand: either a literal value or a Column reference. -/
inductive Operand
  | lit (v : PyVal)
  | col (c : QColumn)
  deriving DecidableEq, Repr

/-- Modelled from the spec: katagawa.orm.column._Operator (module not in the
sources) - a single comparison (column, operator-kind, operand), where the
column is carried as its quoted qualified name. -/
structure OpSpec where
  colname : String
  op : String
  operand : Operand
  deriving DecidableEq, Repr

/-- A condition held by a query: a single _Operator or a
_CombinatorOperator (an ordered list of operators with a boolean kind). -/
inductive Condition
  | opc (o : OpSpec)
  | comb (kind : String) (ops : List OpSpec)
  deriving DecidableEq, Repr

/-- The token produced for one operator: column name, operator kind, and the
value slot (which parameter substitution may overwrite with a placeholder
string on the particular token object it is applied to). -/
structure OpTok where
  colname : String
  op : String
  value : Operand
  deriving DecidableEq, Repr

/-- A child of the WHERE clause: the token of one condition. -/
inductive WhereChild
  | single (t : OpTok)
  | comb (kind : String) (ts : List OpTok)
  deriving DecidableEq, Repr

/-- The Select token tree: field tokens (quoted qualified column names), the
FROM table name, and the WHERE children (empty when no conditions). -/
structure SelectTok where
  fields : List String
  from_ : String
  where_ : List WhereChild
  deriving DecidableEq, Repr

/-- Modelled from the spec: _Operator.get_token constructs the token for one
operator.  Per the spec, compilation is pure: each call builds a fresh token
from the operator's fields. -/
def opTok (o : OpSpec) : OpTok :=
  ⟨o.colname, o.op, o.operand⟩

/-- Modelled from the spec: get_token on a condition - a fresh token for a
single operator, or a fresh combinator token over fresh child tokens. -/
def condToken : Condition → WhereChild
  | .opc o => .single (opTok o)
  | .comb k os => .comb k (os.map opTok)

/-- The operator list the compile loop walks for one condition:
ops = [op] for an _Operator, ops = op.operators for a _CombinatorOperator. -/
def condOps : Condition → List OpSpec
  | .opc o => [o]
  | .comb _ os => os

/-- The parameter name "param_<n>". -/
def paramName (n : Nat) : String :=
  "param_" ++ toString n

/-- The placeholder string the code writes into a token's value slot. -/
def placeholder (n : String) : String :=
  "\x7b" ++ n ++ "\x7d"

/-- Embeds the inner loop of BaseQuery.get_token over the operators of one
condition: for each operator a fresh token o = nop.get_token() is built, and
only when o.value is a str is a parameter recorded (params[name] = o.value)
and the placeholder written into o.value.  o is a token distinct from the
one appended to the WHERE clause, so only the counter and the parameter map
thread on. -/
def extractOps : Nat → List (String × PyVal) → List OpSpec → Nat × List (String × PyVal)
  | n, ps, [] => (n, ps)
  | n, ps, o :: rest =>
    match o.operand with
    | .lit (.pystr s) =>
        let name := paramName n
        let _o2 : OpTok := { opTok o with value := .lit (.pystr (placeholder name)) }
        extractOps (n + 1) (ps ++ [(name, .pystr s)]) rest
    | _ => extractOps n ps rest

/-- Embeds the outer loop of BaseQuery.get_token over self.conditions:
final = op.get_token() is appended to the WHERE clause, and the operators of
the condition are scanned for string-valued operands.  The conditions
themselves are read, never written; the list is threaded through to make
that explicit. -/
def buildWhere : Nat → List (String × PyVal) → List WhereChild → List Condition →
    List Condition → Nat × List (String × PyVal) × List WhereChild × List Condition
  | n, ps, wh, done, [] => (n, ps, wh, done)
  | n, ps, wh, done, c :: rest =>
    let final := condToken c
    let (n2, ps2) := extractOps n ps (condOps c)
    buildWhere n2 ps2 (wh ++ [final]) (done ++ [c]) rest

/-- Embeds katagawa.querying.query.BaseQuery: the primary table, the joined
tables in insertion order, and the accumulated conditions. -/
structure BaseQuery where
  from_ : QTable
  tables : List QTable
  conditions : List Condition
  deriving DecidableEq, Repr

/-- Embeds BaseQuery.where: appends the given conditions in call order. -/
def query_where (q : BaseQuery) (cs : List Condition) : BaseQuery :=
  { q with conditions := q.conditions ++ cs }

/-- The quoted qualified field name "table"."column" built for field lists. -/
def qualName (t : String) (c : String) : String :=
  "\"" ++ t ++ "\".\"" ++ c ++ "\""

/-- Embeds BaseQuery.get_token: build the field tokens from the primary
table's columns then each joined table's columns, attach the FROM clause,
and if conditions exist build the WHERE clause while extracting parameters.
The second component of the result is the query state after the call (the
method performs no assignment to self, so it is the input state, with the
conditions list threaded explicitly through buildWhere). -/
def get_token (q : BaseQuery) : (SelectTok × List (String × PyVal)) × BaseQuery :=
  let fields :=
    q.from_.columns.map (fun c => qualName q.from_.name c.name)
      ++ q.tables.flatMap (fun t => t.columns.map (fun c => qualName t.name c.name))
  if q.conditions.isEmpty then
    ((⟨fields, q.from_.name, []⟩, []), q)
  else
    let (_, ps, wh, conds) := buildWhere 0 [] [] [] q.conditions
    ((⟨fields, q.from_.name, wh⟩, ps), { q with conditions := conds })

/-- The string literals among a list of operators, in order: exactly the
operands the code's isinstance(o.value, str) test selects. -/
def opStrs (os : List OpSpec) : List String :=
  os.filterMap (fun o =>
    match o.operand with
    | .lit (.pystr s) => some s
    | _ => none)

/-- The string literals among the flattened condition operands, in order. -/
def stringLiterals (cs : List Condition) : List String :=
  opStrs (cs.flatMap condOps)

/-- The parameter map the spec of the amended claim predicts: param_n keys
numbered from n, each bound to the corresponding string literal. -/
def enumPs (n : Nat) : List String → List (String × PyVal)
  | [] => []
  | s :: rest => (paramName n, .pystr s) :: enumPs (n + 1) rest

/-! ## Backend model: src/asyncqlio/backends/base.py -/

/-- Embeds asyncqlio.backends.base.DictRow: an OrderedDict from column name
to value, as an ordered association list. -/
structure DictRow where
  entries : List (String × PyVal)
  deriving DecidableEq, Repr

/-- A DictRow subscript: Python int or str key. -/
inductive DKey
  | idx (i : Nat)
  | name (s : String)
  deriving DecidableEq, Repr

/-- Embeds DictRow.getitem: an int subscript indexes list(self.values())
(IndexError re-raised as KeyError); any other key is a plain dict lookup. -/
def dictrow_get (d : DictRow) (k : DKey) : Except PyErr PyVal :=
  match k with
  | .idx i =>
    match d.entries[i]? with
    | some e => .ok e.2
    | none => .error .keyError
  | .name s =>
    match alookup d.entries s with
    | some v => .ok v
    | none => .error .keyError

/-- Embeds DictRow.setitem: an int subscript finds the string key at that
position in list(self.keys()) (IndexError propagates) and stores through
that key; a str key stores directly.  OrderedDict keeps the position of an
existing key. -/
def dictrow_set (d : DictRow) (k : DKey) (v : PyVal) : Except PyErr DictRow :=
  match k with
  | .idx i =>
    match d.entries[i]? with
    | some e => .ok ⟨aset d.entries e.1 v⟩
    | none => .error .indexError
  | .name s => .ok ⟨aset d.entries s v⟩

/-- Python truthiness of a fetch_row result: None is falsy, and a DictRow is
falsy exactly when it is empty (dict truthiness). -/
def fetch_falsy : Option DictRow → Bool
  | none => true
  | some d => d.entries.isEmpty

/-- Embeds BaseResultSet.anext over a modelled cursor state (the list of
rows the driver would still deliver; fetch_row pops the head, None at the
end): res = await fetch_row(); if not res: raise StopAsyncIteration.
Returns (the yielded row or None for StopAsyncIteration, the rest). -/
def rs_anext (rows : List DictRow) : Option DictRow × List DictRow :=
  let res := rows.head?
  if fetch_falsy res then (none, rows.tail)
  else (res, rows.tail)

/-- Embeds BaseResultSet.flatten: the async-for loop that repeatedly takes
anext and appends until StopAsyncIteration.  Unfolds rs_anext step by
step: an empty (falsy) DictRow ends the loop just like an absent row. -/
def rs_flatten : List DictRow → List DictRow
  | [] => []
  | d :: rest => if d.entries.isEmpty then [] else d :: rs_flatten rest

/-- A call on a BaseTransaction, as recorded in an execution trace.  close
carries the has_error argument it received. -/
inductive TxCall
  | tbegin
  | rollback
  | commit
  | close (has_error : Bool)
  deriving DecidableEq, Repr

/-- Whether each abstract transaction method raises when invoked (behavior
of a concrete driver; the base class leaves them abstract). -/
structure TxBehavior where
  rollback_raises : Bool
  commit_raises : Bool
  close_raises : Bool
  deriving DecidableEq, Repr

/-- Embeds BaseTransaction.aexit given whether the body raised
(exc_type is not None): the try block calls rollback() on the error path,
commit() on the normal path, and the finally block always calls
self.close() - with no argument, so close receives its default
has_error = False on every path.  Returns the ordered call trace and
whether aexit itself propagates an exception (from the body call or,
superseding it, from close). -/
def tx_aexit (b : TxBehavior) (exc_present : Bool) : List TxCall × Bool :=
  let body : List TxCall × Bool :=
    if exc_present then ([TxCall.rollback], b.rollback_raises)
    else ([TxCall.commit], b.commit_raises)
  (body.1 ++ [TxCall.close false], body.2 || b.close_raises)

/-- Embeds the whole async-with use of a transaction: aenter calls begin(),
then the body runs (raising or not), then aexit. -/
def tx_scoped (b : TxBehavior) (body_raises : Bool) : List TxCall × Bool :=
  let ex := tx_aexit b body_raises
  (TxCall.tbegin :: ex.1, ex.2)

/-! ## Concrete fixtures used by counterexamples and witnesses -/

/-- The example User table of the query claims: name "user", columns id and
name in declaration order. -/
def exUser : QTable :=
  ⟨"user", [⟨"id"⟩, ⟨"name"⟩]⟩

/-- The condition User.id == 2 (an integer literal operand). -/
def exCondId : Condition :=
  .opc ⟨qualName "user" "id", "=", .lit (.pyint 2)⟩

/-- The condition User.name == "x" (a string literal operand). -/
def exCondName : Condition :=
  .opc ⟨qualName "user" "name", "=", .lit (.pystr "x")⟩

/-- The query of the C1 example: where(User.id == 2, User.name == "x"). -/
def exQuery : BaseQuery :=
  ⟨exUser, [], [exCondId, exCondName]⟩

/-- Schema fixture: column a, primary, on table 1. -/
def colA : Column := ⟨"a", 1, true, .pynone⟩

/-- Schema fixture: column b, primary, on table 1. -/
def colB : Column := ⟨"b", 1, true, .pynone⟩

/-- Schema fixture: a table declaring its two primary columns b THEN a - a
declaration order that differs from alphabetical order. -/
def tblBA : Table := ⟨1, "t", [colB, colA]⟩

/-- A row of tblBA with b = 1 and a = 2. -/
def rowBA : TableRow :=
  ⟨tblBA, false, [], [(colB, .pyint 1), (colA, .pyint 2)]⟩

/-- Schema fixture: a single non-primary column on table 0. -/
def colC : Column := ⟨"c", 0, false, .pynone⟩

/-- Schema fixture: table 0 with the single column c. -/
def tbl0 : Table := ⟨0, "t0", [colC]⟩

/-- A fresh row of tbl0 with no values set. -/
def freshRow : TableRow := ⟨tbl0, false, [], []⟩

/-- A column bound to a DIFFERENT table (id 99) than tbl0. -/
def foreignCol : Column := ⟨"z", 99, false, .pynone⟩

/-- Schema fixture: primary column id on table 3. -/
def colId : Column := ⟨"id", 3, true, .pynone⟩

/-- Schema fixture: non-primary column name on table 3. -/
def colNm : Column := ⟨"name", 3, false, .pynone⟩

/-- Schema fixture: table 3 with columns id (primary) and name. -/
def tblId : Table := ⟨3, "user3", [colId, colNm]⟩

/-- A row of tblId with id = 7. -/
def rowId : TableRow := ⟨tblId, false, [], [(colId, .pyint 7)]⟩

/-- Schema fixture: column d on table 4 with a static default of 42. -/
def colD : Column := ⟨"d", 4, false, .pyint 42⟩

/-- Schema fixture: table 4 with the single column d. -/
def tbl4 : Table := ⟨4, "t4", [colD]⟩

/-- A fresh row of tbl4: column d is declared but has no stored value. -/
def rowD : TableRow := ⟨tbl4, false, [], []⟩

/-- The example DictRow with keys id, name and values 1, "a". -/
def exDictRow : DictRow := ⟨[("id", .pyint 1), ("name", .pystr "a")]⟩

/-- An empty (falsy) DictRow. -/
def emptyRow : DictRow := ⟨[]⟩

/-- A one-entry (truthy) DictRow used by the result-set fixtures. -/
def rowA1 : DictRow := ⟨[("a", .pyint 1)]⟩

/-- Another one-entry (truthy) DictRow used by the result-set fixtures. -/
def rowB2 : DictRow := ⟨[("b", .pyint 2)]⟩

/-! ## Helper lemmas -/

theorem alookup_aset_self {κ : Type} [DecidableEq κ] (m : List (κ × PyVal)) (k : κ) (v : PyVal) :
    alookup (aset m k v) k = some v := by
  induction m with
  | nil => simp [aset, alookup]
  | cons e rest ih =>
    obtain ⟨k0, v0⟩ := e
    by_cases h : k0 = k
    · subst h
      simp [aset, alookup]
    · simp [aset, h, alookup] at ih ⊢
      exact ih

theorem enumPs_append (n : Nat) (l1 l2 : List String) :
    enumPs n (l1 ++ l2) = enumPs n l1 ++ enumPs (n + l1.length) l2 := by
  induction l1 generalizing n with
  | nil => simp [enumPs]
  | cons s rest ih =>
    have hn : n + 1 + rest.length = n + (rest.length + 1) := by omega
    simp [enumPs, ih, hn]

theorem extractOps_eq (os : List OpSpec) (n : Nat) (ps : List (String × PyVal)) :
    extractOps n ps os = (n + (opStrs os).length, ps ++ enumPs n (opStrs os)) := by
  induction os generalizing n ps with
  | nil => simp [extractOps, opStrs, enumPs]
  | cons o rest ih =>
    obtain ⟨cn, opk, operand⟩ := o
    cases operand with
    | lit v =>
      cases v with
      | pystr s =>
        simp [extractOps, opStrs, enumPs, ih, List.filterMap_cons]
        omega
      | pynone => simp [extractOps, opStrs, List.filterMap_cons] at ih ⊢; exact ih n ps
      | pyint m => simp [extractOps, opStrs, List.filterMap_cons] at ih ⊢; exact ih n ps
      | pybool b => simp [extractOps, opStrs, List.filterMap_cons] at ih ⊢; exact ih n ps
    | col c => simp [extractOps, opStrs, List.filterMap_cons] at ih ⊢; exact ih n ps

theorem stringLiterals_cons (c : Condition) (rest : List Condition) :
    stringLiterals (c :: rest) = opStrs (condOps c) ++ stringLiterals rest := by
  simp [stringLiterals, opStrs, List.flatMap_cons, List.filterMap_append]

theorem buildWhere_eq (cs : List Condition) (n : Nat) (ps : List (String × PyVal))
    (wh : List WhereChild) (done : List Condition) :
    buildWhere n ps wh done cs =
      (n + (stringLiterals cs).length,
        ps ++ enumPs n (stringLiterals cs),
        wh ++ cs.map condToken,
        done ++ cs) := by
  induction cs generalizing n ps wh done with
  | nil => simp [buildWhere, stringLiterals, opStrs, enumPs]
  | cons c rest ih =>
    simp only [buildWhere, extractOps_eq]
    rw [ih, stringLiterals_cons]
    simp [enumPs_append, List.append_assoc, List.length_append]
    omega

/-! ## Claim theorems -/

/-- C1 (counterexample): compiling where(User.id == 2, User.name == "x")
does NOT yield the parameter map param_0 = 2, param_1 = "x": the code only
parameterizes string operands, so the actual map is param_0 = "x" and the
integer 2 yields no parameter at all. -/
theorem C1_counterexample :
    (get_token exQuery).1.2 = [(paramName 0, PyVal.pystr "x")] ∧
    (get_token exQuery).1.2 ≠
      [(paramName 0, PyVal.pyint 2), (paramName 1, PyVal.pystr "x")] := by
  decide

/-- C1 (amended): for every query, the parameter map produced by get_token
consists of exactly the STRING literal operands of the flattened condition
list, in first-encountered order, keyed param_0, param_1, ...; non-string
literals and Column operands contribute no parameter entry. -/
theorem C1_params_are_string_literals (q : BaseQuery) :
    (get_token q).1.2 = enumPs 0 (stringLiterals q.conditions) := by
  unfold get_token
  by_cases h : q.conditions.isEmpty
  · have h0 : q.conditions = [] := List.isEmpty_iff.mp h
    simp [h, h0, stringLiterals, opStrs, enumPs]
  · simp [h, buildWhere_eq]

/-- C2 (code bug, evaluated at the failing input): a transaction scoped
block whose body raises calls begin, rollback, then close - but close is
invoked with has_error = False (the default, since the finally block passes
no argument), never with has_error = True; this holds even when rollback
itself raises, and commit is never invoked. -/
theorem C2_close_has_error_not_set (b : TxBehavior) :
    (tx_scoped b true).1 = [TxCall.tbegin, TxCall.rollback, TxCall.close false] ∧
    (tx_scoped b true).1.count (TxCall.close true) = 0 ∧
    (tx_scoped b true).1.count (TxCall.close false) = 1 ∧
    TxCall.commit ∉ (tx_scoped b true).1 := by
  have h1 : (tx_scoped b true).1 = [TxCall.tbegin, TxCall.rollback, TxCall.close false] := rfl
  refine ⟨h1, ?_, ?_, ?_⟩ <;> rw [h1] <;> decide

/-- C6: get_token is pure and repeatable - it leaves the query state (in
particular the stored conditions) unmodified, and calling it again on that
state yields a structurally identical (token tree, parameter map) pair,
including identical placeholder names. -/
theorem C6_get_token_pure (q : BaseQuery) :
    (get_token q).2 = q ∧
    get_token ((get_token q).2) = get_token q := by
  have h2 : (get_token q).2 = q := by
    unfold get_token
    by_cases h : q.conditions.isEmpty
    · simp [h]
    · simp [h, buildWhere_eq]
  exact ⟨h2, by rw [h2]⟩

theorem insertSorted_perm (c : Column) (l : List Column) :
    (insertSorted c l).Perm (c :: l) := by
  induction l with
  | nil => simp [insertSorted]
  | cons d rest ih =>
    by_cases h : d.name.data < c.name.data
    · simp only [insertSorted, if_pos h]
      exact (ih.cons d).trans (List.Perm.swap c d rest)
    · simp [insertSorted, h]

theorem sortByName_perm (l : List Column) : (sortByName l).Perm l := by
  induction l with
  | nil => simp [sortByName]
  | cons c rest ih => exact (insertSorted_perm c (sortByName rest)).trans (ih.cons c)

theorem insertSorted_pairwise (c : Column) (l : List Column)
    (h : l.Pairwise (fun a b => a.name.data ≤ b.name.data)) :
    (insertSorted c l).Pairwise (fun a b => a.name.data ≤ b.name.data) := by
  induction l with
  | nil => simp [insertSorted]
  | cons d rest ih =>
    rcases List.pairwise_cons.mp h with ⟨hd, hrest⟩
    by_cases hlt : d.name.data < c.name.data
    · simp only [insertSorted, if_pos hlt]
      refine List.pairwise_cons.mpr ⟨?_, ih hrest⟩
      intro x hx
      rcases List.mem_cons.mp ((insertSorted_perm c rest).mem_iff.mp hx) with hx1 | hx2
      · exact hx1 ▸ le_of_lt hlt
      · exact hd x hx2
    · simp only [insertSorted, if_neg hlt]
      refine List.pairwise_cons.mpr ⟨?_, h⟩
      intro x hx
      have hcd : c.name.data ≤ d.name.data := le_of_not_lt hlt
      rcases List.mem_cons.mp hx with hx1 | hx2
      · exact hx1 ▸ hcd
      · exact le_trans hcd (hd x hx2)

theorem sortByName_pairwise (l : List Column) :
    (sortByName l).Pairwise (fun a b => a.name.data ≤ b.name.data) := by
  induction l with
  | nil => simp [sortByName]
  | cons c rest ih => exact insertSorted_pairwise c (sortByName rest) ih

theorem calc_pk_columns (t : Table) (pk : PrimaryKey)
    (h : _calculate_primary_key t = some pk) :
    pk.columns = (iter_columns t).filter (fun c => c.primary_key) := by
  unfold _calculate_primary_key at h
  split at h
  · exact absurd h (by simp)
  · obtain rfl := Option.some.inj h
    rfl

theorem mem_decl_of_mem_pk (t : Table) (pk : PrimaryKey) (c : Column)
    (h : _calculate_primary_key t = some pk) (hc : c ∈ pk.columns) :
    c ∈ t.decl := by
  rw [calc_pk_columns t pk h] at hc
  have h1 := (List.mem_filter.mp hc).1
  exact (sortByName_perm t.decl).mem_iff.mp h1

/-- C5 (counterexample): for the table declaring its primary columns b THEN
a, primary-key computation does NOT iterate in declaration order: it yields
the columns alphabetically (a before b), the computed key is (a, b), and a
row with b = 1, a = 2 has primary key tuple (2, 1) - the alphabetical
order, not the declaration order (1, 2). -/
theorem C5_counterexample :
    ((iter_columns tblBA).map (fun c => c.name) = ["a", "b"] ∧
      tblBA.decl.map (fun c => c.name) = ["b", "a"]) ∧
    (_calculate_primary_key tblBA).map (fun pk => pk.columns) = some [colA, colB] ∧
    row_primary_key rowBA = .ok (.tup [PyVal.pyint 2, PyVal.pyint 1]) := by
  decide

/-- C5 (amended): primary-key computation iterates the table's columns in
alphabetical order of the column names (the inspect.getmembers order) and
collects those with primary_key = True, so the key's columns are a
name-sorted permutation of the declared primary columns; the ordering is
deterministic, hence composite-key tuples are stable across runs. -/
theorem C5_primary_key_sorted_by_name (t : Table) (pk : PrimaryKey)
    (h : _calculate_primary_key t = some pk) :
    pk.columns.Perm (t.decl.filter (fun c => c.primary_key)) ∧
    pk.columns.Pairwise (fun a b => a.name.data ≤ b.name.data) := by
  have hcols := calc_pk_columns t pk h
  constructor
  · rw [hcols]
    exact (sortByName_perm t.decl).filter _
  · rw [hcols]
    exact (sortByName_pairwise t.decl).filter _

/-- C5 (witness): the amended claim applied to the concrete table that
declares b then a. -/
theorem C5_witness :
    _calculate_primary_key tblBA = some ⟨[colA, colB], 1⟩ ∧
    (([colA, colB] : List Column).Perm (tblBA.decl.filter (fun c => c.primary_key)) ∧
      ([colA, colB] : List Column).Pairwise (fun a b => a.name.data ≤ b.name.data)) :=
  ⟨by decide, C5_primary_key_sorted_by_name tblBA ⟨[colA, colB], 1⟩ (by decide)⟩

/-- C3 (counterexample): on a fresh row with no prior value for column c,
update_column(c, 1) followed by update_column(c, 2) leaves the
previous-value map holding v1 = 1 for c - the claim says it should have no
entry for c and never hold v1. -/
theorem C3_counterexample :
    (update_column (update_column freshRow colC (PyVal.pyint 1)) colC
        (PyVal.pyint 2))._previous_values = [(colC, PyVal.pyint 1)] ∧
    alookup (update_column (update_column freshRow colC (PyVal.pyint 1)) colC
        (PyVal.pyint 2))._previous_values colC = some (PyVal.pyint 1) := by
  decide

/-- C3 (amended): after update_column(c, v1) then update_column(c, v2) on a
row with no previous-value entry for c, the previous-value map holds the
value c had before v1 when c had a current value, and otherwise holds v1
itself (snapshotted by the SECOND update, which sees v1 as the current
value); at most one prior value is kept per column. -/
theorem C3_first_snapshot (r : TableRow) (c : Column) (v1 v2 : PyVal)
    (h : alookup r._previous_values c = none) :
    alookup (update_column (update_column r c v1) c v2)._previous_values c
      = some ((alookup r._values c).getD v1) := by
  cases h0 : alookup r._values c with
  | some v0 => simp [update_column, h, h0, alookup_aset_self]
  | none => simp [update_column, h, h0, alookup_aset_self]

/-- C3 (witness): the amended claim applied to the fresh row fixture. -/
theorem C3_first_snapshot_witness :
    alookup freshRow._previous_values colC = none ∧
    alookup (update_column (update_column freshRow colC (PyVal.pyint 3)) colC
        (PyVal.pyint 4))._previous_values colC
      = some ((alookup freshRow._values colC).getD (PyVal.pyint 3)) :=
  ⟨by decide, C3_first_snapshot freshRow colC (PyVal.pyint 3) (PyVal.pyint 4) (by decide)⟩

/-- C4 (counterexample): updating the row through a column bound to a
DIFFERENT table does not fail and DOES set the value - update_column
performs no table-membership check. -/
theorem C4_counterexample :
    foreignCol.table ≠ tbl0.id ∧
    alookup (update_column freshRow foreignCol (PyVal.pyint 5))._values foreignCol
      = some (PyVal.pyint 5) := by
  decide

/-- C4 (amended): for a column not bound to the row's table, update_column
succeeds and stores the value (no table check on the write path); only the
read path (_get_column_value) raises the table-mismatch ValueError for that
column. -/
theorem C4_write_unchecked_read_checked (r : TableRow) (c : Column) (v : PyVal)
    (h : c.table ≠ r._table.id) :
    alookup (update_column r c v)._values c = some v ∧
    _get_column_value (update_column r c v) c = .error .valueError := by
  constructor
  · simp [update_column, alookup_aset_self]
  · simp [_get_column_value, update_column, h]

/-- C4 (witness): the amended claim applied to the fresh row and the
foreign column. -/
theorem C4_witness :
    foreignCol.table ≠ tbl0.id ∧
    (alookup (update_column freshRow foreignCol (PyVal.pyint 6))._values foreignCol
        = some (PyVal.pyint 6) ∧
      _get_column_value (update_column freshRow foreignCol (PyVal.pyint 6)) foreignCol
        = .error .valueError) :=
  ⟨by decide, C4_write_unchecked_read_checked freshRow foreignCol (PyVal.pyint 6) (by decide)⟩

theorem collect_values_ok (r : TableRow) (cs : List Column)
    (h : ∀ c ∈ cs, c.table = r._table.id) :
    collect_values r cs
      = Except.ok (cs.map (fun c => (alookup r._values c).getD c.default)) := by
  induction cs with
  | nil => simp [collect_values]
  | cons c rest ih =>
    have hc := h c (by simp)
    have hrest := ih (fun x hx => h x (by simp [hx]))
    cases h0 : alookup r._values c with
    | some v => simp [collect_values, _get_column_value, hc, h0, hrest]
    | none => simp [collect_values, _get_column_value, hc, h0, hrest]

/-- C7: for a row of a table whose computed primary key has exactly one
column, the primary_key property returns the bare column value (a scalar),
and for two or more columns it returns the tuple of values in the key's
column order. -/
theorem C7_primary_key_scalar_or_tuple (r : TableRow) (pk : PrimaryKey)
    (hb : ∀ c ∈ r._table.decl, c.table = r._table.id)
    (hpk : _calculate_primary_key r._table = some pk) :
    row_primary_key r =
      (match pk.columns.map (fun c => (alookup r._values c).getD c.default) with
        | [v] => .ok (.scalar v)
        | vs => .ok (.tup vs)) := by
  have hmem : ∀ c ∈ pk.columns, c.table = r._table.id := by
    intro c hc
    exact hb c (mem_decl_of_mem_pk r._table pk c hpk hc)
  unfold row_primary_key
  rw [hpk]
  dsimp only
  rw [collect_values_ok r pk.columns hmem]
  cases hl : pk.columns.map (fun c => (alookup r._values c).getD c.default) with
  | nil => rfl
  | cons a rest => cases rest <;> rfl

/-- C7 (witness): the claim applied to a row of a one-primary-column table,
returning the scalar 7, not a 1-tuple. -/
theorem C7_witness :
    (∀ c ∈ tblId.decl, c.table = tblId.id) ∧
    _calculate_primary_key tblId = some ⟨[colId], 3⟩ ∧
    row_primary_key rowId = .ok (.scalar (PyVal.pyint 7)) := by
  refine ⟨by decide, by decide, ?_⟩
  have h := C7_primary_key_scalar_or_tuple rowId ⟨[colId], 3⟩ (by decide) (by decide)
  exact h.trans (by decide)

/-- C9: attribute access on a declared column with no stored value raises a
KeyError (no fallback to the column's static default), while the internal
value getter used by repr and primary_key returns the default for the very
same column. -/
theorem C9_getattr_no_default_fallback (r : TableRow) (c : Column) (n : String)
    (hfind : (table_columns r._table).find? (fun col => col.name = n) = some c)
    (hunset : alookup r._values c = none)
    (hb : c.table = r._table.id) :
    row_getattr r n = .error .keyError ∧ _get_column_value r c = .ok c.default := by
  constructor
  · simp [row_getattr, hfind, hunset]
  · simp [_get_column_value, hb, hunset]

/-- C9 (witness): the claim applied to the declared-but-unset column d with
static default 42: attribute access raises KeyError, the internal getter
returns 42. -/
theorem C9_witness :
    (table_columns rowD._table).find? (fun col => col.name = "d") = some colD ∧
    (row_getattr rowD "d" = .error .keyError ∧
      _get_column_value rowD colD = .ok (PyVal.pyint 42)) := by
  refine ⟨by decide, ?_⟩
  have h := C9_getattr_no_default_fallback rowD colD "d" (by decide) (by decide) (by decide)
  exact ⟨h.1, h.2.trans (by decide)⟩

theorem alookup_of_getElem? {entries : List (String × PyVal)} {i : Nat} {k : String} {v0 : PyVal}
    (hnd : (entries.map Prod.fst).Nodup) (hi : entries[i]? = some (k, v0)) :
    alookup entries k = some v0 := by
  induction entries generalizing i with
  | nil => simp at hi
  | cons e rest ih =>
    obtain ⟨k0, w0⟩ := e
    rw [List.map_cons, List.nodup_cons] at hnd
    obtain ⟨hk0, hrest⟩ := hnd
    cases i with
    | zero =>
      obtain ⟨rfl, rfl⟩ : k0 = k ∧ w0 = v0 := by simpa using hi
      simp [alookup]
    | succ j =>
      have hj : rest[j]? = some (k, v0) := by simpa using hi
      have hkmem : k ∈ rest.map Prod.fst :=
        List.mem_map.mpr ⟨(k, v0), List.getElem?_mem hj, rfl⟩
      have hne : k0 ≠ k := fun h => hk0 (h ▸ hkmem)
      simpa [alookup, hne] using ih hrest hj

theorem aset_eq_set {entries : List (String × PyVal)} {i : Nat} {k : String} {v0 v : PyVal}
    (hnd : (entries.map Prod.fst).Nodup) (hi : entries[i]? = some (k, v0)) :
    aset entries k v = entries.set i (k, v) := by
  induction entries generalizing i with
  | nil => simp at hi
  | cons e rest ih =>
    obtain ⟨k0, w0⟩ := e
    rw [List.map_cons, List.nodup_cons] at hnd
    obtain ⟨hk0, hrest⟩ := hnd
    cases i with
    | zero =>
      obtain ⟨rfl, rfl⟩ : k0 = k ∧ w0 = v0 := by simpa using hi
      simp [aset]
    | succ j =>
      have hj : rest[j]? = some (k, v0) := by simpa using hi
      have hkmem : k ∈ rest.map Prod.fst :=
        List.mem_map.mpr ⟨(k, v0), List.getElem?_mem hj, rfl⟩
      have hne : k0 ≠ k := fun h => hk0 (h ▸ hkmem)
      simp [aset, hne, ih hrest hj]

/-- C8: for a DictRow with pairwise-distinct keys, positional and
name-based addressing reflect the same insertion order: reading index i
yields the value stored under the key at insertion index i, reading that
key yields the same value, and a positional write at index i updates the
entry at that key in place (no new positional slot or integer key). -/
theorem C8_positional_addressing (d : DictRow) (i : Nat) (k : String) (v0 v : PyVal)
    (hnd : (d.entries.map Prod.fst).Nodup)
    (hi : d.entries[i]? = some (k, v0)) :
    dictrow_get d (.idx i) = .ok v0 ∧
    dictrow_get d (.name k) = .ok v0 ∧
    dictrow_set d (.idx i) v = .ok ⟨d.entries.set i (k, v)⟩ := by
  refine ⟨?_, ?_, ?_⟩
  · simp [dictrow_get, hi]
  · simp [dictrow_get, alookup_of_getElem? hnd hi]
  · simp [dictrow_set, hi, aset_eq_set hnd hi]

/-- C8 (witness): the claim applied to the example row with keys id, name
and values 1, "a": index 0 and key "id" both read 1, and writing index 1
updates the entry at key "name" to "b". -/
theorem C8_witness :
    ((exDictRow.entries.map Prod.fst).Nodup ∧
      exDictRow.entries[0]? = some ("id", PyVal.pyint 1) ∧
      exDictRow.entries[1]? = some ("name", PyVal.pystr "a")) ∧
    dictrow_get exDictRow (.idx 0) = .ok (PyVal.pyint 1) ∧
    dictrow_get exDictRow (.name "id") = .ok (PyVal.pyint 1) ∧
    dictrow_set exDictRow (.idx 1) (PyVal.pystr "b")
      = .ok ⟨[("id", PyVal.pyint 1), ("name", PyVal.pystr "b")]⟩ := by
  refine ⟨⟨by decide, by decide, by decide⟩, ?_, ?_, ?_⟩
  · exact (C8_positional_addressing exDictRow 0 "id" (PyVal.pyint 1) PyVal.pynone
      (by decide) (by decide)).1
  · exact (C8_positional_addressing exDictRow 0 "id" (PyVal.pyint 1) PyVal.pynone
      (by decide) (by decide)).2.1
  · have h := (C8_positional_addressing exDictRow 1 "name" (PyVal.pystr "a")
      (PyVal.pystr "b") (by decide) (by decide)).2.2
    exact h.trans (by decide)

theorem rs_flatten_append (xs ys : List DictRow) (e : DictRow)
    (hxs : ∀ x ∈ xs, x.entries.isEmpty = false)
    (he : e.entries.isEmpty = true) :
    rs_flatten (xs ++ e :: ys) = xs := by
  induction xs with
  | nil => simp [rs_flatten, he]
  | cons x rest ih =>
    have hx := hxs x (by simp)
    have hr := ih (fun y hy => hxs y (by simp [hy]))
    simp [rs_flatten, hx, hr]

/-- C10: the async-iteration step treats ANY falsy fetch_row result as
end-of-sequence - an empty DictRow ends iteration exactly like an absent
row - and consequently flatten returns only the rows before the first
falsy row, silently dropping everything after it. -/
theorem C10_falsy_row_ends_iteration (xs ys : List DictRow) (e : DictRow)
    (hxs : ∀ x ∈ xs, x.entries.isEmpty = false)
    (he : e.entries.isEmpty = true) :
    (rs_anext (e :: ys)).1 = none ∧
    rs_flatten (xs ++ e :: ys) = xs := by
  constructor
  · simp [rs_anext, fetch_falsy, he]
  · exact rs_flatten_append xs ys e hxs he

/-- C10 (witness): the claim applied to a concrete stream holding a
non-empty row, then an empty row, then another non-empty row: iteration
stops at the empty row and flatten drops the row after it. -/
theorem C10_witness :
    ((∀ x ∈ [rowA1], x.entries.isEmpty = false) ∧ emptyRow.entries.isEmpty = true) ∧
    (rs_anext (emptyRow :: [rowB2])).1 = none ∧
    rs_flatten ([rowA1] ++ emptyRow :: [rowB2]) = [rowA1] :=
  ⟨⟨by decide, by decide⟩,
    C10_falsy_row_ends_iteration [rowA1] [rowB2] emptyRow (by decide) (by decide)⟩

end Asyncqlio
